import Mathlib

/-!
Shallow embedding of the SlidePilot tool-calling agent loop and its slide
tools (ai_agent.go, slide_tools.go, app.go, converter.go), with theorems
checking the natural-language specification against the code.

External collaborators (the Anthropic inference provider, the python UNO
backend scripts, the LibreOffice/ImageMagick converter, the filesystem)
are modelled as explicit parameters (scripts/oracles); everything the Go
code itself computes is embedded as executable Lean definitions.
-/

deriving instance DecidableEq for Except

namespace SlidePilot

/-- One content block of a provider response (anthropic message content):
either a text block or a tool-use block `{id, name, input}`. -/
inductive ContentBlock where
  | text (s : String)
  | toolUse (id name input : String)
deriving DecidableEq

/-- A provider response (`anthropic.Message`), reduced to the content
items the loop in `SendMessage` inspects. -/
structure Msg where
  content : List ContentBlock
deriving DecidableEq

/-- A tool result block (`anthropic.NewToolResultBlock(id, content, isError)`). -/
structure ToolResultBlock where
  toolUseId : String
  content : String
  isError : Bool
deriving DecidableEq

/-- One conversation turn (`anthropic.MessageParam`): the code appends
user text messages, user messages carrying a batch of tool results, and
assistant messages (`message.ToParam()`). -/
inductive MessageParam where
  | userText (s : String)
  | userToolResults (rs : List ToolResultBlock)
  | assistant (content : List ContentBlock)
deriving DecidableEq

/-- `ToolDefinition` from ai_agent.go: name plus the handler function.
The handler closes over the `App` state; description and input schema do
not affect the loop's control flow and are omitted. -/
structure ToolDefinition where
  name : String
  fn : String → Except String String

/-- `getToolDisplayName` from ai_agent.go. -/
def getToolDisplayName (toolName : String) : String :=
  if toolName == "list_slides" then "📋 Listing slides"
  else if toolName == "read_slide" then "👀 Reading slide content"
  else if toolName == "edit_slide_text" then "✏️ Editing slide text"
  else if toolName == "export_slides" then "📸 Exporting slides"
  else if toolName == "add_slide" then "➕ Adding new slide"
  else if toolName == "delete_slide" then "🗑️ Deleting slide"
  else "🔧 Executing " ++ toolName

/-- `executeTool` from ai_agent.go: resolve the tool by name (first
match in the registry slice); unresolved names yield the "tool not
found" error block; a handler error is converted into an error result
block carrying the originating id; a handler success into a non-error
result block. -/
def executeTool (tools : List ToolDefinition) (id name input : String) :
    ToolResultBlock :=
  match tools.find? (fun t => t.name == name) with
  | none => ⟨id, "tool not found", true⟩
  | some t =>
    match t.fn input with
    | .error e => ⟨id, e, true⟩
    | .ok r => ⟨id, r, false⟩

/-- Observable events of one `SendMessage` run, in order: each inference
call (recording the cancellation state of the context passed to
`runInference` and the conversation snapshot sent), each tool execution,
and each emitted UI event. -/
inductive Ev where
  | inferCall (ctxCancelled : Bool) (conv : List MessageParam)
  | toolExec (id name : String)
  | emitText (s : String)
  | emitStatus (s : String)
deriving DecidableEq

/-- The body of the `for _, content := range currentMessage.Content`
loop in `SendMessage`: text blocks are emitted immediately (when
non-empty); tool-use blocks emit a status event and are executed via
`executeTool`, their results collected in arrival order. -/
def processContent (tools : List ToolDefinition) :
    List ContentBlock → List Ev × List ToolResultBlock
  | [] => ([], [])
  | ContentBlock.text s :: rest =>
    let (evs, rs) := processContent tools rest
    ((if s ≠ "" then [Ev.emitText s] else []) ++ evs, rs)
  | ContentBlock.toolUse id name input :: rest =>
    let (evs, rs) := processContent tools rest
    (Ev.emitStatus (getToolDisplayName name) :: Ev.toolExec id name :: evs,
     executeTool tools id name input :: rs)

/-- Go's `fmt.Sprintf` with the presentation context, as built in
`SendMessage`: the user message is enhanced when a presentation is
loaded (non-empty current path). -/
def enhanceMessage (currentPresentationPath userMessage : String) : String :=
  if currentPresentationPath ≠ "" then
    "Current presentation loaded: " ++ currentPresentationPath
      ++ "\n\nUser request: " ++ userMessage
  else userMessage

/-- The `for { ... }` loop of `SendMessage` (ai_agent.go lines 78-119),
driven by a scripted provider: `script` lists the provider's responses
to the successive follow-up inference calls (`Except.error` for a
transport/provider failure). The loop consults the provider only after
collecting a non-empty batch of tool results (the `break` comes first),
so the three script cases share the same empty-results branch; an
exhausted script behaves like a provider failure on the call it cannot
answer. Each inference call is issued with `context.Background()`
(recorded as `ctxCancelled = false`), exactly as in the source. -/
def sendLoop (tools : List ToolDefinition) :
    List (Except String Msg) → List MessageParam → Msg →
      List Ev × Except String (List MessageParam)
  | [], conv, cur =>
    let evs := (processContent tools cur.content).1
    let results := (processContent tools cur.content).2
    if results.isEmpty then
      (evs, Except.ok conv)
    else
      (evs ++ [Ev.inferCall false (conv ++ [MessageParam.userToolResults results])],
       Except.error "provider failure")
  | Except.error e :: _, conv, cur =>
    let evs := (processContent tools cur.content).1
    let results := (processContent tools cur.content).2
    if results.isEmpty then
      (evs, Except.ok conv)
    else
      (evs ++ [Ev.inferCall false (conv ++ [MessageParam.userToolResults results])],
       Except.error e)
  | Except.ok m :: rest, conv, cur =>
    let evs := (processContent tools cur.content).1
    let results := (processContent tools cur.content).2
    if results.isEmpty then
      (evs, Except.ok conv)
    else
      let conv' := conv ++ [MessageParam.userToolResults results]
      let conv'' := conv' ++ [MessageParam.assistant m.content]
      (evs ++ Ev.inferCall false conv' :: (sendLoop tools rest conv'' m).1,
       (sendLoop tools rest conv'' m).2)

/-- `SendMessage` from ai_agent.go: append the (enhanced) user message,
run the first inference, append the assistant message, then loop. The
returned value is the event trace together with the final conversation
(`Except.ok`) or the propagated inference error (`Except.error`). The
`ctxCancelled` parameter is the cancellation state of the `ctx` passed
to `SendMessage`; as in the source, it is stored only for event
emission and every inference call uses `context.Background()`. -/
def SendMessage (tools : List ToolDefinition) (initConv : List MessageParam)
    (currentPresentationPath : String) (_ctxCancelled : Bool)
    (script : List (Except String Msg)) (userMessage : String) :
    List Ev × Except String (List MessageParam) :=
  let conv0 := initConv
    ++ [MessageParam.userText (enhanceMessage currentPresentationPath userMessage)]
  match script with
  | [] => ([Ev.inferCall false conv0], Except.error "provider failure")
  | Except.error e :: _ => ([Ev.inferCall false conv0], Except.error e)
  | Except.ok m :: rest =>
    let conv1 := conv0 ++ [MessageParam.assistant m.content]
    (Ev.inferCall false conv0 :: (sendLoop tools rest conv1 m).1,
     (sendLoop tools rest conv1 m).2)

/-- Core protocol events: inference calls and tool executions. -/
inductive CoreEv where
  | infer
  | exec
deriving DecidableEq

/-- Projection of an event trace onto its core protocol events. -/
def coreEvents (evs : List Ev) : List CoreEv :=
  evs.filterMap fun e =>
    match e with
    | Ev.inferCall _ _ => some CoreEv.infer
    | Ev.toolExec _ _ => some CoreEv.exec
    | _ => none

/-- The conversation snapshots passed to the successive inference calls
of a run, in call order. -/
def snapshots (evs : List Ev) : List (List MessageParam) :=
  evs.filterMap fun e =>
    match e with
    | Ev.inferCall _ c => some c
    | _ => none

/-- Append-only growth of consecutive inference snapshots: each later
snapshot is exactly the previous one extended by the assistant turn of
the round's response followed by the batch of tool results — no
reordering, loss, or mutation of prior turns, and the full history is
resent. -/
def snapChain : List (List MessageParam) → Prop
  | c1 :: c2 :: rest =>
    (∃ m r, c2 = c1 ++ [MessageParam.assistant m, MessageParam.userToolResults r])
      ∧ snapChain (c2 :: rest)
  | _ => True

/-- The number of tool-use items in a list of response content blocks. -/
def toolUseCount (content : List ContentBlock) : Nat :=
  (content.filter fun b =>
    match b with
    | ContentBlock.toolUse _ _ _ => true
    | _ => false).length

/-- A scripted provider answering every round: the responses for rounds
1..k followed by a final response. -/
def scriptOf (ms : List Msg) (mlast : Msg) : List (Except String Msg) :=
  ms.map Except.ok ++ [Except.ok mlast]

/-! ## Tool handlers (slide_tools.go)

The handlers shell out to python UNO scripts and to the
LibreOffice/ImageMagick converter; those external effects are modelled
as explicit oracle parameters, and every external invocation the
handler performs is recorded in a returned trace. JSON decoding of the
backend's stdout (`json.Unmarshal`) is external library code, modelled
by the structured `BackendResult` the oracle supplies. -/

/-- The `App` state a handler reads (`app.currentPresentationPath`);
`Option` models the `app != nil` check. -/
structure AppState where
  currentPresentationPath : String
deriving DecidableEq

/-- JSON values, restricted to the shapes the handlers inspect or
produce: booleans (the `success` field), strings, numbers, string
lists, and an opaque catch-all for anything else. -/
inductive JVal where
  | bool (b : Bool)
  | str (s : String)
  | num (n : Int)
  | strList (xs : List String)
  | other
deriving DecidableEq

/-- How the backend's stdout decodes: not valid JSON (the first
`json.Unmarshal` into `interface\x7b\x7d` fails), valid JSON that is not an
object (the second `json.Unmarshal` into `map[string]interface\x7b\x7d`
fails), or a JSON object with the given fields. -/
inductive JsonOut where
  | invalid
  | nonObject
  | obj (fields : List (String × JVal))
deriving DecidableEq

/-- Outcome of one `exec.Command(...).CombinedOutput()` call on a UNO
script: a nonzero exit (error message plus captured output), or the
captured stdout together with how it decodes as JSON. -/
inductive BackendResult where
  | execError (msg output : String)
  | output (raw : String) (json : JsonOut)
deriving DecidableEq

/-- An external command invocation performed by a handler: a python UNO
script run (`exec.Command("python3", args...)`, the full argument list
recorded), or a `ConvertPPTXToJPEG` run (itself LibreOffice +
ImageMagick). -/
inductive ExtCall where
  | runBackend (args : List String)
  | convert (pptxPath outputDir : String)
deriving DecidableEq

/-- A handler's successful return value: the backend's raw stdout
passed through unchanged, the marshalled export-result object of
`ExportSlides`, or the re-marshalled backend object enhanced with
`exported_slides` / `slides_directory` (AddSlide / DeleteSlide after a
successful auto-export). -/
inductive HandlerOut where
  | raw (s : String)
  | exported (success : Bool) (slideCount : Nat) (slides : List String)
      (outputDir : String)
  | enhanced (fields : List (String × JVal)) (exportedSlides : List String)
      (slidesDirectory : String)
deriving DecidableEq

/-- The path-substitution prologue shared verbatim by all six handlers:
an empty `presentation_path` is replaced by the App's current path when
one is loaded (`app != nil && app.currentPresentationPath != ""`),
otherwise the handler fails. -/
def resolvePath (app : Option AppState) (inputPath : String) :
    Except String String :=
  if inputPath ≠ "" then Except.ok inputPath
  else
    match app with
    | some a =>
      if a.currentPresentationPath ≠ "" then Except.ok a.currentPresentationPath
      else Except.error "no presentation loaded - please load a presentation first"
    | none => Except.error "no presentation loaded - please load a presentation first"

/-- Lookup of a field in a decoded JSON object (Go map indexing). -/
def lookupField : List (String × JVal) → String → Option JVal
  | [], _ => none
  | (k, v) :: rest, key => if k == key then some v else lookupField rest key

/-- `success, ok := result["success"].(bool); ok && success`. -/
def successFlag (fields : List (String × JVal)) : Bool :=
  match lookupField fields "success" with
  | some (JVal.bool b) => b
  | _ => false

/-- Decoded input of `export_slides`. Absent optional fields decode to
the zero values `[]` and `""`. -/
structure ExportSlidesInput where
  presentationPath : String
  slideNumbers : List Int
  outputDir : String
deriving DecidableEq

/-- `ExportSlides` from slide_tools.go: resolve the path, default the
output directory to "slides", run the converter, then filter the
exported files when specific slide numbers were requested (a map keyed
by `num-1` selects the 0-based indices to keep), and return the
marshalled result object `success=true, slide_count, slides,
output_dir`. -/
def ExportSlides (app : Option AppState) (input : ExportSlidesInput)
    (convert : Except String (List String)) :
    List ExtCall × Except String HandlerOut :=
  match resolvePath app input.presentationPath with
  | Except.error e => ([], Except.error e)
  | Except.ok path =>
    let outputDir := if input.outputDir == "" then "slides" else input.outputDir
    match convert with
    | Except.error e =>
      ([ExtCall.convert path outputDir],
       Except.error ("failed to export slides: " ++ e))
    | Except.ok slides =>
      let slides' :=
        if input.slideNumbers.isEmpty then slides
        else
          let keys := input.slideNumbers.map (fun n => n - 1)
          (slides.enum.filter (fun p => decide ((p.1 : Int) ∈ keys))).map
            (fun p => p.2)
      ([ExtCall.convert path outputDir],
       Except.ok (HandlerOut.exported true slides'.length slides' outputDir))

/-- Decoded input of `list_slides`. -/
structure ListSlidesInput where
  presentationPath : String
deriving DecidableEq

/-- `ListSlides` from slide_tools.go: resolve the path, check the file
exists (`os.Stat`, the `fileExists` parameter), run the UNO script,
fail on a nonzero exit or non-JSON stdout, else return the raw
output. -/
def ListSlides (app : Option AppState) (input : ListSlidesInput)
    (fileExists : Bool) (backend : BackendResult) :
    List ExtCall × Except String HandlerOut :=
  match resolvePath app input.presentationPath with
  | Except.error e => ([], Except.error e)
  | Except.ok path =>
    if !fileExists then
      ([], Except.error ("presentation file not found: " ++ path))
    else
      let args := ["scripts/uno_list_slides.py", path]
      match backend with
      | BackendResult.execError msg out =>
        ([ExtCall.runBackend args],
         Except.error ("failed to list slides: " ++ msg ++ "\nOutput: " ++ out))
      | BackendResult.output raw json =>
        match json with
        | JsonOut.invalid =>
          ([ExtCall.runBackend args],
           Except.error "invalid JSON output from UNO script")
        | _ => ([ExtCall.runBackend args], Except.ok (HandlerOut.raw raw))

/-- Decoded input of `read_slide`. -/
structure ReadSlideInput where
  presentationPath : String
  slideNumber : Int
deriving DecidableEq

/-- `ReadSlide` from slide_tools.go: resolve the path, validate the
1-based slide number, run the UNO script, fail on a nonzero exit or
non-JSON stdout, else return the raw output. (There is no `os.Stat`
check in this handler.) -/
def ReadSlide (app : Option AppState) (input : ReadSlideInput)
    (backend : BackendResult) : List ExtCall × Except String HandlerOut :=
  match resolvePath app input.presentationPath with
  | Except.error e => ([], Except.error e)
  | Except.ok path =>
    if input.slideNumber < 1 then
      ([], Except.error "slide_number must be 1 or greater")
    else
      let args := ["scripts/uno_read_slide.py", path, toString input.slideNumber]
      match backend with
      | BackendResult.execError msg out =>
        ([ExtCall.runBackend args],
         Except.error ("failed to read slide: " ++ msg ++ "\nOutput: " ++ out))
      | BackendResult.output raw json =>
        match json with
        | JsonOut.invalid =>
          ([ExtCall.runBackend args],
           Except.error "invalid JSON output from UNO script")
        | _ => ([ExtCall.runBackend args], Except.ok (HandlerOut.raw raw))

/-- Decoded input of `edit_slide_text`. -/
structure EditSlideTextInput where
  presentationPath : String
  slideNumber : Int
  targetType : String
  targetValue : String
  newText : String
  oldText : String
deriving DecidableEq

/-- `EditSlideText` from slide_tools.go: resolve the path, check the
file exists, validate the slide number and the required fields, run the
UNO edit script; on a decoded object result with `success=true`,
auto-export the edited slide by calling `ExportSlides` with
`{path, [slide_number], "slides"}` (the input is marshalled and
re-decoded unchanged); an export failure is only logged, and the
handler always returns the edit script's raw output. -/
def EditSlideText (app : Option AppState) (input : EditSlideTextInput)
    (fileExists : Bool) (backend : BackendResult)
    (convert : Except String (List String)) :
    List ExtCall × Except String HandlerOut :=
  match resolvePath app input.presentationPath with
  | Except.error e => ([], Except.error e)
  | Except.ok path =>
    if !fileExists then
      ([], Except.error ("presentation file not found: " ++ path))
    else if input.slideNumber < 1 then
      ([], Except.error "slide_number must be 1 or greater")
    else if input.targetType == "" then
      ([], Except.error "target_type is required")
    else if input.targetValue == "" then
      ([], Except.error "target_value is required")
    else if input.newText == "" then
      ([], Except.error "new_text is required")
    else if input.targetType == "text_replace" && input.oldText == "" then
      ([], Except.error "old_text is required for text_replace mode")
    else
      let args := ["scripts/uno_edit_slide.py", path,
                   toString input.slideNumber, input.targetType,
                   input.targetValue, input.newText]
                  ++ (if input.oldText ≠ "" then [input.oldText] else [])
      match backend with
      | BackendResult.execError msg out =>
        ([ExtCall.runBackend args],
         Except.error ("failed to edit slide: " ++ msg ++ "\nOutput: " ++ out))
      | BackendResult.output raw json =>
        match json with
        | JsonOut.invalid =>
          ([ExtCall.runBackend args],
           Except.error "invalid JSON output from UNO script")
        | JsonOut.nonObject =>
          ([ExtCall.runBackend args], Except.ok (HandlerOut.raw raw))
        | JsonOut.obj fields =>
          if successFlag fields then
            (ExtCall.runBackend args ::
              (ExportSlides app
                { presentationPath := path,
                  slideNumbers := [input.slideNumber], outputDir := "slides" }
                convert).1,
             Except.ok (HandlerOut.raw raw))
          else
            ([ExtCall.runBackend args], Except.ok (HandlerOut.raw raw))

/-- Decoded input of `add_slide`. Absent optional fields decode to the
zero values `0` and `""`. -/
structure AddSlideInput where
  presentationPath : String
  position : Int
  layout : String
  title : String
deriving DecidableEq

/-- `AddSlide` from slide_tools.go: resolve the path, default the
layout to "blank", build the argument list (a position of 0 or below
becomes the empty positional argument, meaning append to the end — no
validation), run the UNO script, fail on a nonzero exit, invalid
JSON, or a non-object result; then always run `ConvertPPTXToJPEG` for
visual verification: on converter failure only warn and return the raw
output, on success return the result enhanced with the exported
slides. -/
def AddSlide (app : Option AppState) (input : AddSlideInput)
    (backend : BackendResult) (convert : Except String (List String)) :
    List ExtCall × Except String HandlerOut :=
  match resolvePath app input.presentationPath with
  | Except.error e => ([], Except.error e)
  | Except.ok path =>
    let layout := if input.layout == "" then "blank" else input.layout
    let args := ["scripts/uno_add_slide.py", path]
      ++ [if input.position > 0 then toString input.position else ""]
      ++ [layout]
      ++ (if input.title ≠ "" then [input.title] else [])
    match backend with
    | BackendResult.execError msg out =>
      ([ExtCall.runBackend args],
       Except.error ("failed to add slide: " ++ msg ++ "\nOutput: " ++ out))
    | BackendResult.output raw json =>
      match json with
      | JsonOut.invalid =>
        ([ExtCall.runBackend args],
         Except.error "invalid JSON output from UNO script")
      | JsonOut.nonObject =>
        ([ExtCall.runBackend args],
         Except.error "failed to parse add slide result")
      | JsonOut.obj fields =>
        match convert with
        | Except.error _ =>
          ([ExtCall.runBackend args, ExtCall.convert path "slides"],
           Except.ok (HandlerOut.raw raw))
        | Except.ok slides =>
          ([ExtCall.runBackend args, ExtCall.convert path "slides"],
           Except.ok (HandlerOut.enhanced fields slides "slides"))

/-- Decoded input of `delete_slide`. -/
structure DeleteSlideInput where
  presentationPath : String
  slideNumber : Int
deriving DecidableEq

/-- `DeleteSlide` from slide_tools.go: resolve the path, validate the
1-based slide number, run the UNO script, fail on a nonzero exit,
invalid JSON, or a non-object result; then always run
`ConvertPPTXToJPEG` for visual verification: on converter failure only
warn and return the raw output, on success return the result enhanced
with the exported slides. -/
def DeleteSlide (app : Option AppState) (input : DeleteSlideInput)
    (backend : BackendResult) (convert : Except String (List String)) :
    List ExtCall × Except String HandlerOut :=
  match resolvePath app input.presentationPath with
  | Except.error e => ([], Except.error e)
  | Except.ok path =>
    if input.slideNumber < 1 then
      ([], Except.error "slide_number must be 1 or greater")
    else
      let args := ["scripts/uno_delete_slide.py", path,
                   toString input.slideNumber]
      match backend with
      | BackendResult.execError msg out =>
        ([ExtCall.runBackend args],
         Except.error ("failed to delete slide: " ++ msg ++ "\nOutput: " ++ out))
      | BackendResult.output raw json =>
        match json with
        | JsonOut.invalid =>
          ([ExtCall.runBackend args],
           Except.error "invalid JSON output from UNO script")
        | JsonOut.nonObject =>
          ([ExtCall.runBackend args],
           Except.error "failed to parse delete slide result")
        | JsonOut.obj fields =>
          match convert with
          | Except.error _ =>
            ([ExtCall.runBackend args, ExtCall.convert path "slides"],
             Except.ok (HandlerOut.raw raw))
          | Except.ok slides =>
            ([ExtCall.runBackend args, ExtCall.convert path "slides"],
             Except.ok (HandlerOut.enhanced fields slides "slides"))

/-! ## App.GetSlides (app.go) -/

/-- One entry visited by `filepath.WalkDir` over the slides directory,
in visit order. -/
structure WalkEntry where
  path : String
  isDir : Bool
deriving DecidableEq

/-- Embedding of Go's `filepath.Ext`: the suffix of the last
slash-separated path element beginning at its final dot, empty when the
last element has no dot. -/
def fileExt (p : String) : String :=
  let seg := p.data.reverse.takeWhile (fun c => c ≠ '/')
  if seg.contains '.' then
    String.mk ((seg.takeWhile (fun c => c ≠ '.') ++ ['.']).reverse)
  else ""

/-- The slide-image filter of `GetSlides`:
`filepath.Ext(path) == ".jpg" || filepath.Ext(path) == ".jpeg"`. -/
def isSlideImage (p : String) : Bool :=
  fileExt p == ".jpg" || fileExt p == ".jpeg"

/-- Lexicographic comparison of character lists by code point (for
ASCII file names this is exactly Go's byte-wise string order). -/
def charListLe : List Char → List Char → Bool
  | [], _ => true
  | _ :: _, [] => false
  | a :: as, b :: bs =>
    if a.toNat < b.toNat then true
    else if b.toNat < a.toNat then false
    else charListLe as bs

/-- Go's string comparison (`sort.Strings` order): lexicographic. -/
def strLe (a b : String) : Bool :=
  charListLe a.data b.data

/-- `sort.Strings`: an ascending lexicographic sort. The embedding uses
insertion sort, which computes the same result as any sorting algorithm
on this total order. -/
def sortStrings (l : List String) : List String :=
  List.insertionSort (fun a b => strLe a b = true) l

/-- `App.GetSlides` from app.go: when the slides directory does not
exist, return the non-nil empty slice (`make([]string, 0)`) and no
error; otherwise walk the directory (`walk` is the oracle for the
visited entries, `Except.error` when the walk — including a failing
`filepath.Abs` — reports an error, in which case Go returns the nil
slice), collect the absolute paths (`abs`) of the non-directory
`.jpg`/`.jpeg` entries, and return them sorted. The first component
models the Go slice (`none` = nil slice), the second the returned
error. -/
def GetSlides (dirExists : Bool) (walk : Except String (List WalkEntry))
    (abs : String → String) : Option (List String) × Option String :=
  if !dirExists then (some [], none)
  else
    match walk with
    | Except.error e => (none, some e)
    | Except.ok entries =>
      let slides := (entries.filter
        (fun d => !d.isDir && isSlideImage d.path)).map (fun d => abs d.path)
      (some (sortStrings slides), none)

/-! ## Helper lemmas about the loop embedding -/

lemma coreEvents_nil : coreEvents [] = [] := rfl

lemma coreEvents_append (l₁ l₂ : List Ev) :
    coreEvents (l₁ ++ l₂) = coreEvents l₁ ++ coreEvents l₂ := by
  simp [coreEvents]

lemma coreEvents_cons_infer (b : Bool) (c : List MessageParam) (l : List Ev) :
    coreEvents (Ev.inferCall b c :: l) = CoreEv.infer :: coreEvents l := by
  simp [coreEvents]

lemma snapshots_nil : snapshots [] = [] := rfl

lemma snapshots_append (l₁ l₂ : List Ev) :
    snapshots (l₁ ++ l₂) = snapshots l₁ ++ snapshots l₂ := by
  simp [snapshots]

lemma isEmpty_false_of_length_pos {α : Type} {l : List α} (h : 0 < l.length) :
    l.isEmpty = false := by
  cases l with
  | nil => simp at h
  | cons a t => rfl

lemma isEmpty_true_of_length_zero {α : Type} {l : List α} (h : l.length = 0) :
    l.isEmpty = true := by
  cases l with
  | nil => rfl
  | cons a t => simp at h

/-- Processing one response's content yields one `toolExec` core event
per tool-use item (and no inference calls). -/
lemma processContent_core (tools : List ToolDefinition) (content : List ContentBlock) :
    coreEvents (processContent tools content).1
      = List.replicate (toolUseCount content) CoreEv.exec := by
  induction content with
  | nil => simp [processContent, coreEvents, toolUseCount]
  | cons b rest ih =>
    cases b with
    | text s =>
      by_cases h : s = "" <;>
        simpa [processContent, coreEvents_append, coreEvents, toolUseCount,
          List.filter_cons, h] using ih
    | toolUse id name input =>
      simpa [processContent, coreEvents, toolUseCount, List.filter_cons,
        List.replicate_succ] using ih

/-- One collected tool result per tool-use item. -/
lemma processContent_results_length (tools : List ToolDefinition)
    (content : List ContentBlock) :
    (processContent tools content).2.length = toolUseCount content := by
  induction content with
  | nil => simp [processContent, toolUseCount]
  | cons b rest ih =>
    cases b with
    | text s =>
      simpa [processContent, toolUseCount, List.filter_cons] using ih
    | toolUse id name input =>
      simpa [processContent, toolUseCount, List.filter_cons] using ih

lemma processContent_results_isEmpty_false (tools : List ToolDefinition)
    {content : List ContentBlock} (h : toolUseCount content = 1) :
    (processContent tools content).2.isEmpty = false := by
  refine isEmpty_false_of_length_pos ?_
  rw [processContent_results_length, h]
  omega

lemma processContent_results_isEmpty_true (tools : List ToolDefinition)
    {content : List ContentBlock} (h : toolUseCount content = 0) :
    (processContent tools content).2.isEmpty = true := by
  refine isEmpty_true_of_length_zero ?_
  rw [processContent_results_length, h]

/-- Content processing issues no inference call. -/
lemma snapshots_processContent (tools : List ToolDefinition)
    (content : List ContentBlock) :
    snapshots (processContent tools content).1 = [] := by
  induction content with
  | nil => simp [processContent, snapshots]
  | cons b rest ih =>
    cases b with
    | text s =>
      by_cases h : s = "" <;>
        simpa [processContent, snapshots_append, snapshots, h] using ih
    | toolUse id name input =>
      simpa [processContent, snapshots] using ih

lemma count_replicate_flatten_infer (k : Nat) :
    ((List.replicate k [CoreEv.exec, CoreEv.infer]).flatten).count CoreEv.infer = k := by
  induction k with
  | zero => simp
  | succ n ih => simp [List.replicate_succ, List.count_cons, ih]

lemma count_replicate_flatten_exec (k : Nat) :
    ((List.replicate k [CoreEv.exec, CoreEv.infer]).flatten).count CoreEv.exec = k := by
  induction k with
  | zero => simp
  | succ n ih => simp [List.replicate_succ, List.count_cons, ih]

/-- Core trace of the tool loop under a scripted provider that answers
one tool-use round `ms.length` more times and then stops requesting
tools: alternating tool execution / inference call pairs, and a normal
(non-error) completion. -/
lemma sendLoop_core (tools : List ToolDefinition) :
    ∀ (ms : List Msg) (mlast : Msg) (conv : List MessageParam) (cur : Msg),
      toolUseCount cur.content = 1 → (∀ m ∈ ms, toolUseCount m.content = 1) →
      toolUseCount mlast.content = 0 →
      coreEvents (sendLoop tools (scriptOf ms mlast) conv cur).1
          = (List.replicate (ms.length + 1) [CoreEv.exec, CoreEv.infer]).flatten
        ∧ ∃ c, (sendLoop tools (scriptOf ms mlast) conv cur).2 = Except.ok c := by
  intro ms
  induction ms with
  | nil =>
    intro mlast conv cur h1 _ h0
    have hne := processContent_results_isEmpty_false tools h1
    have hinner := processContent_results_isEmpty_true tools h0
    have hunfold : (sendLoop tools (scriptOf [] mlast) conv cur).1
        = (processContent tools cur.content).1
          ++ Ev.inferCall false
              (conv ++ [MessageParam.userToolResults (processContent tools cur.content).2])
            :: (processContent tools mlast.content).1 := by
      simp [scriptOf, sendLoop, hne, hinner]
    constructor
    · rw [hunfold, coreEvents_append, coreEvents_cons_infer,
        processContent_core, processContent_core, h1, h0]
      simp [List.replicate_succ]
    · simp [scriptOf, sendLoop, hne, hinner]
  | cons m ms ih =>
    intro mlast conv cur h1 hms h0
    have hne := processContent_results_isEmpty_false tools h1
    have hm : toolUseCount m.content = 1 := hms m (by simp)
    have hrec := ih mlast
      (conv ++ [MessageParam.userToolResults (processContent tools cur.content).2,
                MessageParam.assistant m.content]) m hm
      (fun x hx => hms x (by simp [hx])) h0
    have hunfold : (sendLoop tools (scriptOf (m :: ms) mlast) conv cur).1
        = (processContent tools cur.content).1
          ++ Ev.inferCall false
              (conv ++ [MessageParam.userToolResults (processContent tools cur.content).2])
            :: (sendLoop tools (scriptOf ms mlast)
                 (conv ++ [MessageParam.userToolResults (processContent tools cur.content).2,
                           MessageParam.assistant m.content]) m).1 := by
      simp [scriptOf, sendLoop, hne]
    have hunfold2 : (sendLoop tools (scriptOf (m :: ms) mlast) conv cur).2
        = (sendLoop tools (scriptOf ms mlast)
            (conv ++ [MessageParam.userToolResults (processContent tools cur.content).2,
                      MessageParam.assistant m.content]) m).2 := by
      simp [scriptOf, sendLoop, hne]
    constructor
    · rw [hunfold, coreEvents_append, coreEvents_cons_infer, hrec.1,
        processContent_core, h1]
      simp [List.replicate_succ]
    · rw [hunfold2]
      exact hrec.2

/-- C1: with a scripted provider returning one tool-use item on each of
rounds 1..k (`ms`, `k = ms.length`) and zero tool-use items on round
k+1 (`mlast`), `SendMessage` performs exactly `k+1` inference calls and
`k` tool executions, each tool execution occurring after the inference
call that requested it and before the next inference call (the core
event trace is exactly `infer, (exec, infer) * k`), and the run
completes without error. The `k = 0` instance is the zero-tool-use
round-1 case: one inference call, zero tool executions. -/
theorem C1_loop_termination (tools : List ToolDefinition)
    (initConv : List MessageParam) (path : String) (c : Bool)
    (ms : List Msg) (mlast : Msg) (userMessage : String)
    (hms : ∀ m ∈ ms, toolUseCount m.content = 1)
    (hlast : toolUseCount mlast.content = 0) :
    coreEvents (SendMessage tools initConv path c (scriptOf ms mlast) userMessage).1
        = CoreEv.infer :: (List.replicate ms.length [CoreEv.exec, CoreEv.infer]).flatten
      ∧ (coreEvents (SendMessage tools initConv path c (scriptOf ms mlast) userMessage).1).count
          CoreEv.infer = ms.length + 1
      ∧ (coreEvents (SendMessage tools initConv path c (scriptOf ms mlast) userMessage).1).count
          CoreEv.exec = ms.length
      ∧ ∃ conv, (SendMessage tools initConv path c (scriptOf ms mlast) userMessage).2
          = Except.ok conv := by
  have hmain :
      coreEvents (SendMessage tools initConv path c (scriptOf ms mlast) userMessage).1
          = CoreEv.infer :: (List.replicate ms.length [CoreEv.exec, CoreEv.infer]).flatten
        ∧ ∃ conv, (SendMessage tools initConv path c (scriptOf ms mlast) userMessage).2
            = Except.ok conv := by
    cases ms with
    | nil =>
      have hinner := processContent_results_isEmpty_true tools hlast
      have hunfold : (SendMessage tools initConv path c (scriptOf [] mlast) userMessage).1
          = Ev.inferCall false
              (initConv ++ [MessageParam.userText (enhanceMessage path userMessage)])
            :: (processContent tools mlast.content).1 := by
        simp [scriptOf, SendMessage, sendLoop, hinner]
      constructor
      · rw [hunfold, coreEvents_cons_infer, processContent_core, hlast]
        simp
      · simp [scriptOf, SendMessage, sendLoop, hinner]
    | cons m ms' =>
      have hm : toolUseCount m.content = 1 := hms m (by simp)
      have hrec := sendLoop_core tools ms' mlast
        (initConv ++ [MessageParam.userText (enhanceMessage path userMessage),
                      MessageParam.assistant m.content]) m hm
        (fun x hx => hms x (by simp [hx])) hlast
      have hunfold : (SendMessage tools initConv path c
            (scriptOf (m :: ms') mlast) userMessage).1
          = Ev.inferCall false
              (initConv ++ [MessageParam.userText (enhanceMessage path userMessage)])
            :: (sendLoop tools (scriptOf ms' mlast)
                 (initConv ++ [MessageParam.userText (enhanceMessage path userMessage),
                               MessageParam.assistant m.content]) m).1 := by
        simp [scriptOf, SendMessage]
      have hunfold2 : (SendMessage tools initConv path c
            (scriptOf (m :: ms') mlast) userMessage).2
          = (sendLoop tools (scriptOf ms' mlast)
              (initConv ++ [MessageParam.userText (enhanceMessage path userMessage),
                            MessageParam.assistant m.content]) m).2 := by
        simp [scriptOf, SendMessage]
      constructor
      · rw [hunfold, coreEvents_cons_infer, hrec.1]
        simp [List.replicate_succ]
      · rw [hunfold2]
        exact hrec.2
  refine ⟨hmain.1, ?_, ?_, hmain.2⟩
  · rw [hmain.1, List.count_cons, count_replicate_flatten_infer]
    simp
  · rw [hmain.1, List.count_cons, count_replicate_flatten_exec]
    simp

/-- Witness for C1 at `k = 1`: one scripted tool-use round then a final
text-only round. -/
theorem C1_loop_termination_witness :
    ((∀ m ∈ [Msg.mk [ContentBlock.toolUse "t1" "list_slides" "{}"]],
        toolUseCount m.content = 1)
      ∧ toolUseCount [ContentBlock.text "done"] = 0)
    ∧ (coreEvents (SendMessage [] [] "" false
          (scriptOf [⟨[ContentBlock.toolUse "t1" "list_slides" "{}"]⟩]
            ⟨[ContentBlock.text "done"]⟩) "hi").1
        = CoreEv.infer ::
            (List.replicate
              ([Msg.mk [ContentBlock.toolUse "t1" "list_slides" "{}"]].length)
              [CoreEv.exec, CoreEv.infer]).flatten
      ∧ (coreEvents (SendMessage [] [] "" false
          (scriptOf [⟨[ContentBlock.toolUse "t1" "list_slides" "{}"]⟩]
            ⟨[ContentBlock.text "done"]⟩) "hi").1).count CoreEv.infer
          = [Msg.mk [ContentBlock.toolUse "t1" "list_slides" "{}"]].length + 1
      ∧ (coreEvents (SendMessage [] [] "" false
          (scriptOf [⟨[ContentBlock.toolUse "t1" "list_slides" "{}"]⟩]
            ⟨[ContentBlock.text "done"]⟩) "hi").1).count CoreEv.exec
          = [Msg.mk [ContentBlock.toolUse "t1" "list_slides" "{}"]].length
      ∧ ∃ conv, (SendMessage [] [] "" false
          (scriptOf [⟨[ContentBlock.toolUse "t1" "list_slides" "{}"]⟩]
            ⟨[ContentBlock.text "done"]⟩) "hi").2 = Except.ok conv) :=
  ⟨⟨by decide, by decide⟩,
   C1_loop_termination [] [] "" false
     [⟨[ContentBlock.toolUse "t1" "list_slides" "{}"]⟩]
     ⟨[ContentBlock.text "done"]⟩ "hi" (by decide) (by decide)⟩

lemma snapshots_cons_infer (b : Bool) (c : List MessageParam) (l : List Ev) :
    snapshots (Ev.inferCall b c :: l) = c :: snapshots l := by
  simp [snapshots]

/-- Every follow-up inference snapshot of the tool loop extends the
previous snapshot by exactly one assistant turn and one tool-result
batch, in order. -/
lemma sendLoop_snapChain (tools : List ToolDefinition) :
    ∀ (script : List (Except String Msg)) (p : List MessageParam) (cur : Msg),
      snapChain (p :: snapshots
        (sendLoop tools script (p ++ [MessageParam.assistant cur.content]) cur).1) := by
  intro script
  induction script with
  | nil =>
    intro p cur
    by_cases h : (processContent tools cur.content).2.isEmpty = true
    · simp [sendLoop, h, snapshots_processContent, snapChain]
    · have h' : (processContent tools cur.content).2.isEmpty = false :=
        Bool.not_eq_true _ ▸ Bool.of_not_eq_true h
      simp only [sendLoop, h', Bool.false_eq_true, if_false, snapshots_append,
        snapshots_processContent, List.nil_append]
      simp only [snapshots, List.filterMap_cons, List.filterMap_nil, snapChain,
        and_true]
      exact ⟨cur.content, (processContent tools cur.content).2, by simp⟩
  | cons r rest ih =>
    intro p cur
    by_cases h : (processContent tools cur.content).2.isEmpty = true
    · cases r <;> simp [sendLoop, h, snapshots_processContent, snapChain]
    · have h' : (processContent tools cur.content).2.isEmpty = false :=
        Bool.not_eq_true _ ▸ Bool.of_not_eq_true h
      cases r with
      | error e =>
        simp only [sendLoop, h', Bool.false_eq_true, if_false, snapshots_append,
          snapshots_processContent, List.nil_append]
        simp only [snapshots, List.filterMap_cons, List.filterMap_nil, snapChain,
          and_true]
        exact ⟨cur.content, (processContent tools cur.content).2, by simp⟩
      | ok m =>
        have hrec := ih
          (p ++ [MessageParam.assistant cur.content]
            ++ [MessageParam.userToolResults (processContent tools cur.content).2]) m
        have hunfold : snapshots
            (sendLoop tools (Except.ok m :: rest)
              (p ++ [MessageParam.assistant cur.content]) cur).1
            = (p ++ [MessageParam.assistant cur.content]
                ++ [MessageParam.userToolResults (processContent tools cur.content).2])
              :: snapshots (sendLoop tools rest
                  (p ++ [MessageParam.assistant cur.content]
                    ++ [MessageParam.userToolResults (processContent tools cur.content).2]
                    ++ [MessageParam.assistant m.content]) m).1 := by
          simp [sendLoop, h', snapshots_append, snapshots_processContent,
            snapshots_cons_infer]
        rw [hunfold]
        refine ⟨⟨cur.content, (processContent tools cur.content).2, by simp⟩, ?_⟩
        exact hrec

/-- C2: the conversation resent to the model is append-only and
order-preserving: the first inference call of a `SendMessage` run
carries exactly the prior conversation extended by the (enhanced) user
turn, and every follow-up inference call carries exactly the previous
snapshot extended, in order, by the round's assistant turn and the
batch of its tool results — the full history, never a window, with no
reordering, loss, or mutation of prior turns. -/
theorem C2_conversation_append_only (tools : List ToolDefinition)
    (initConv : List MessageParam) (path : String) (c : Bool)
    (script : List (Except String Msg)) (userMessage : String) :
    (snapshots (SendMessage tools initConv path c script userMessage).1).head?
        = some (initConv ++ [MessageParam.userText (enhanceMessage path userMessage)])
      ∧ snapChain (snapshots (SendMessage tools initConv path c script userMessage).1) := by
  cases script with
  | nil =>
    constructor <;> simp [SendMessage, snapshots, snapChain]
  | cons r rest =>
    cases r with
    | error e =>
      constructor <;> simp [SendMessage, snapshots, snapChain]
    | ok m =>
      have h := sendLoop_snapChain tools rest
        (initConv ++ [MessageParam.userText (enhanceMessage path userMessage)]) m
      have hunfold : snapshots
          (SendMessage tools initConv path c (Except.ok m :: rest) userMessage).1
          = (initConv ++ [MessageParam.userText (enhanceMessage path userMessage)])
            :: snapshots (sendLoop tools rest
                ((initConv ++ [MessageParam.userText (enhanceMessage path userMessage)])
                  ++ [MessageParam.assistant m.content]) m).1 := by
        simp [SendMessage, snapshots_cons_infer]
      rw [hunfold]
      exact ⟨by simp, h⟩

/-- When a round's response requested tools, the next snapshot sent to
the model is the conversation extended by exactly the collected
tool-result batch (regardless of how the provider answers it). -/
lemma sendLoop_snapshots_cons (tools : List ToolDefinition)
    (script : List (Except String Msg)) (conv : List MessageParam) (cur : Msg)
    (h : (processContent tools cur.content).2.isEmpty = false) :
    ∃ tail, snapshots (sendLoop tools script conv cur).1
      = (conv ++ [MessageParam.userToolResults (processContent tools cur.content).2])
        :: tail := by
  cases script with
  | nil =>
    exact ⟨[], by simp [sendLoop, h, snapshots_append, snapshots_processContent,
      snapshots_cons_infer, snapshots_nil]⟩
  | cons r rest =>
    cases r with
    | error e =>
      exact ⟨[], by simp [sendLoop, h, snapshots_append, snapshots_processContent,
        snapshots_cons_infer, snapshots_nil]⟩
    | ok m =>
      refine ⟨snapshots (sendLoop tools rest
          (conv ++ [MessageParam.userToolResults (processContent tools cur.content).2,
                    MessageParam.assistant m.content]) m).1, ?_⟩
      simp [sendLoop, h, snapshots_append, snapshots_processContent,
        snapshots_cons_infer]

/-- C7: a tool-use item whose name matches no registered tool yields
the error result block `(id, "tool not found", is_error=true)` — no
handler is consulted, since no descriptor resolves — and the loop
continues: the very next inference call receives the conversation with
that error result appended as the tool-result batch. -/
theorem C7_unknown_tool_name (tools : List ToolDefinition)
    (initConv : List MessageParam) (path : String) (c : Bool)
    (id name input userMessage : String) (rest : List (Except String Msg))
    (h : ∀ t ∈ tools, t.name ≠ name) :
    executeTool tools id name input
        = ⟨id, "tool not found", true⟩
      ∧ ∃ tail, snapshots (SendMessage tools initConv path c
            (Except.ok ⟨[ContentBlock.toolUse id name input]⟩ :: rest) userMessage).1
          = (initConv ++ [MessageParam.userText (enhanceMessage path userMessage)])
            :: (initConv
                ++ [MessageParam.userText (enhanceMessage path userMessage),
                    MessageParam.assistant [ContentBlock.toolUse id name input],
                    MessageParam.userToolResults [⟨id, "tool not found", true⟩]])
            :: tail := by
  have hfind : tools.find? (fun t => t.name == name) = none := by
    rw [List.find?_eq_none]
    intro t ht
    simpa using h t ht
  have hexec : executeTool tools id name input = ⟨id, "tool not found", true⟩ := by
    simp [executeTool, hfind]
  have hpc : processContent tools [ContentBlock.toolUse id name input]
      = ([Ev.emitStatus (getToolDisplayName name), Ev.toolExec id name],
         [⟨id, "tool not found", true⟩]) := by
    simp [processContent, hexec]
  have hne : (processContent tools
      (Msg.mk [ContentBlock.toolUse id name input]).content).2.isEmpty = false := by
    rw [show (Msg.mk [ContentBlock.toolUse id name input]).content
      = [ContentBlock.toolUse id name input] from rfl, hpc]
    rfl
  refine ⟨hexec, ?_⟩
  obtain ⟨tail, htail⟩ := sendLoop_snapshots_cons tools rest
    ((initConv ++ [MessageParam.userText (enhanceMessage path userMessage)])
      ++ [MessageParam.assistant
            (Msg.mk [ContentBlock.toolUse id name input]).content])
    (Msg.mk [ContentBlock.toolUse id name input]) hne
  refine ⟨tail, ?_⟩
  have hunfold : snapshots (SendMessage tools initConv path c
        (Except.ok ⟨[ContentBlock.toolUse id name input]⟩ :: rest) userMessage).1
      = (initConv ++ [MessageParam.userText (enhanceMessage path userMessage)])
        :: snapshots (sendLoop tools rest
            ((initConv ++ [MessageParam.userText (enhanceMessage path userMessage)])
              ++ [MessageParam.assistant
                    (Msg.mk [ContentBlock.toolUse id name input]).content])
            (Msg.mk [ContentBlock.toolUse id name input])).1 := by
    simp [SendMessage, snapshots_cons_infer]
  rw [hunfold, htail, hpc]
  simp

/-- Witness for C7 with an empty registry and tool name "foo". -/
theorem C7_unknown_tool_name_witness :
    (∀ t ∈ ([] : List ToolDefinition), t.name ≠ "foo")
    ∧ (executeTool [] "t1" "foo" "{}" = ⟨"t1", "tool not found", true⟩
      ∧ ∃ tail, snapshots (SendMessage [] [] "" false
            (Except.ok ⟨[ContentBlock.toolUse "t1" "foo" "{}"]⟩ :: []) "hi").1
          = ([] ++ [MessageParam.userText (enhanceMessage "" "hi")])
            :: ([]
                ++ [MessageParam.userText (enhanceMessage "" "hi"),
                    MessageParam.assistant [ContentBlock.toolUse "t1" "foo" "{}"],
                    MessageParam.userToolResults [⟨"t1", "tool not found", true⟩]])
            :: tail) :=
  ⟨by simp, C7_unknown_tool_name [] [] "" false "t1" "foo" "{}" "hi" [] (by simp)⟩

/-- An error outcome of the loop always happens at an inference call:
the trace of a failed run ends with the inference call whose provider
answer was the error. -/
lemma sendLoop_error_last (tools : List ToolDefinition) :
    ∀ (script : List (Except String Msg)) (conv : List MessageParam) (cur : Msg)
      (e : String),
      (sendLoop tools script conv cur).2 = Except.error e →
      ∃ c, (sendLoop tools script conv cur).1.getLast?
        = some (Ev.inferCall false c) := by
  intro script
  induction script with
  | nil =>
    intro conv cur e h
    by_cases hemp : (processContent tools cur.content).2.isEmpty = true
    · simp [sendLoop, hemp] at h
    · have h' : (processContent tools cur.content).2.isEmpty = false :=
        Bool.of_not_eq_true hemp
      exact ⟨conv ++ [MessageParam.userToolResults (processContent tools cur.content).2],
        by simp [sendLoop, h', List.getLast?_concat]⟩
  | cons r rest ih =>
    intro conv cur e h
    by_cases hemp : (processContent tools cur.content).2.isEmpty = true
    · cases r <;> simp [sendLoop, hemp] at h
    · have h' : (processContent tools cur.content).2.isEmpty = false :=
        Bool.of_not_eq_true hemp
      cases r with
      | error e' =>
        exact ⟨conv ++ [MessageParam.userToolResults (processContent tools cur.content).2],
          by simp [sendLoop, h', List.getLast?_concat]⟩
      | ok m =>
        have hres : (sendLoop tools rest
            (conv ++ [MessageParam.userToolResults (processContent tools cur.content).2,
                      MessageParam.assistant m.content]) m).2 = Except.error e := by
          have := h
          simpa [sendLoop, h'] using this
        obtain ⟨cc, hcc⟩ := ih _ m e hres
        refine ⟨cc, ?_⟩
        have hunfold : (sendLoop tools (Except.ok m :: rest) conv cur).1
            = ((processContent tools cur.content).1
                ++ [Ev.inferCall false
                     (conv ++ [MessageParam.userToolResults
                        (processContent tools cur.content).2])])
              ++ (sendLoop tools rest
                  (conv ++ [MessageParam.userToolResults
                      (processContent tools cur.content).2,
                    MessageParam.assistant m.content]) m).1 := by
          simp [sendLoop, h']
        rw [hunfold, List.getLast?_append, hcc]
        rfl

/-- C8: a failing tool invocation never aborts the loop. A handler
error is converted into a tool result with `is_error=true` carrying the
originating tool-call id; that result is appended to the conversation
exactly like a success and sent back to the model in the next inference
call; and whenever a `SendMessage` run returns an error, the trace ends
at an inference call — only inference (transport) failures abort. -/
theorem C8_tool_errors_kept_in_loop :
    (∀ (tools : List ToolDefinition) (id name input e : String)
        (t : ToolDefinition),
        tools.find? (fun u => u.name == name) = some t →
        t.fn input = Except.error e →
        executeTool tools id name input = ⟨id, e, true⟩)
    ∧ (∀ (tools : List ToolDefinition) (initConv : List MessageParam)
        (path : String) (c : Bool) (userMessage id name input e : String)
        (t : ToolDefinition) (rest : List (Except String Msg)),
        tools.find? (fun u => u.name == name) = some t →
        t.fn input = Except.error e →
        ∃ tail, snapshots (SendMessage tools initConv path c
            (Except.ok ⟨[ContentBlock.toolUse id name input]⟩ :: rest) userMessage).1
          = (initConv ++ [MessageParam.userText (enhanceMessage path userMessage)])
            :: (initConv
                ++ [MessageParam.userText (enhanceMessage path userMessage),
                    MessageParam.assistant [ContentBlock.toolUse id name input],
                    MessageParam.userToolResults [⟨id, e, true⟩]])
            :: tail)
    ∧ (∀ (tools : List ToolDefinition) (initConv : List MessageParam)
        (path : String) (c : Bool) (script : List (Except String Msg))
        (userMessage e : String),
        (SendMessage tools initConv path c script userMessage).2 = Except.error e →
        ∃ conv, (SendMessage tools initConv path c script userMessage).1.getLast?
          = some (Ev.inferCall false conv)) := by
  have hexec : ∀ (tools : List ToolDefinition) (id name input e : String)
      (t : ToolDefinition),
      tools.find? (fun u => u.name == name) = some t →
      t.fn input = Except.error e →
      executeTool tools id name input = ⟨id, e, true⟩ := by
    intro tools id name input e t hf hfn
    simp [executeTool, hf, hfn]
  refine ⟨hexec, ?_, ?_⟩
  · intro tools initConv path c userMessage id name input e t rest hf hfn
    have hx := hexec tools id name input e t hf hfn
    have hpc : processContent tools [ContentBlock.toolUse id name input]
        = ([Ev.emitStatus (getToolDisplayName name), Ev.toolExec id name],
           [⟨id, e, true⟩]) := by
      simp [processContent, hx]
    have hne : (processContent tools
        (Msg.mk [ContentBlock.toolUse id name input]).content).2.isEmpty = false := by
      rw [show (Msg.mk [ContentBlock.toolUse id name input]).content
        = [ContentBlock.toolUse id name input] from rfl, hpc]
      rfl
    obtain ⟨tail, htail⟩ := sendLoop_snapshots_cons tools rest
      ((initConv ++ [MessageParam.userText (enhanceMessage path userMessage)])
        ++ [MessageParam.assistant
              (Msg.mk [ContentBlock.toolUse id name input]).content])
      (Msg.mk [ContentBlock.toolUse id name input]) hne
    refine ⟨tail, ?_⟩
    have hunfold : snapshots (SendMessage tools initConv path c
          (Except.ok ⟨[ContentBlock.toolUse id name input]⟩ :: rest) userMessage).1
        = (initConv ++ [MessageParam.userText (enhanceMessage path userMessage)])
          :: snapshots (sendLoop tools rest
              ((initConv ++ [MessageParam.userText (enhanceMessage path userMessage)])
                ++ [MessageParam.assistant
                      (Msg.mk [ContentBlock.toolUse id name input]).content])
              (Msg.mk [ContentBlock.toolUse id name input])).1 := by
      simp [SendMessage, snapshots_cons_infer]
    rw [hunfold, htail, hpc]
    simp
  · intro tools initConv path c script userMessage e h
    cases script with
    | nil =>
      exact ⟨initConv ++ [MessageParam.userText (enhanceMessage path userMessage)],
        by simp [SendMessage]⟩
    | cons r rest =>
      cases r with
      | error e' =>
        exact ⟨initConv ++ [MessageParam.userText (enhanceMessage path userMessage)],
          by simp [SendMessage]⟩
      | ok m =>
        have hres : (sendLoop tools rest
            ((initConv ++ [MessageParam.userText (enhanceMessage path userMessage)])
              ++ [MessageParam.assistant m.content]) m).2 = Except.error e := by
          simpa [SendMessage] using h
        obtain ⟨cc, hcc⟩ := sendLoop_error_last tools rest _ m e hres
        refine ⟨cc, ?_⟩
        have hne : (sendLoop tools rest
            ((initConv ++ [MessageParam.userText (enhanceMessage path userMessage)])
              ++ [MessageParam.assistant m.content]) m).1 ≠ [] := by
          intro hnil
          rw [hnil] at hcc
          simp at hcc
        have hunfold : (SendMessage tools initConv path c
              (Except.ok m :: rest) userMessage).1
            = [Ev.inferCall false
                (initConv ++ [MessageParam.userText (enhanceMessage path userMessage)])]
              ++ (sendLoop tools rest
                  ((initConv ++ [MessageParam.userText (enhanceMessage path userMessage)])
                    ++ [MessageParam.assistant m.content]) m).1 := by
          simp [SendMessage]
        rw [hunfold, List.getLast?_append, hcc]
        rfl

/-- Witness for C8 with a one-tool registry whose handler fails. -/
theorem C8_tool_errors_kept_in_loop_witness :
    ([ToolDefinition.mk "read_slide" (fun _ => Except.error "boom")].find?
        (fun u => u.name == "read_slide")
      = some (ToolDefinition.mk "read_slide" (fun _ => Except.error "boom"))
    ∧ (ToolDefinition.mk "read_slide" (fun _ => Except.error "boom")).fn "{}"
      = Except.error "boom")
    ∧ executeTool [ToolDefinition.mk "read_slide" (fun _ => Except.error "boom")]
        "t1" "read_slide" "{}" = ⟨"t1", "boom", true⟩
    ∧ (∃ tail, snapshots (SendMessage
          [ToolDefinition.mk "read_slide" (fun _ => Except.error "boom")] [] "" false
          (Except.ok ⟨[ContentBlock.toolUse "t1" "read_slide" "{}"]⟩ :: []) "hi").1
        = ([] ++ [MessageParam.userText (enhanceMessage "" "hi")])
          :: ([]
              ++ [MessageParam.userText (enhanceMessage "" "hi"),
                  MessageParam.assistant [ContentBlock.toolUse "t1" "read_slide" "{}"],
                  MessageParam.userToolResults [⟨"t1", "boom", true⟩]])
          :: tail)
    ∧ (∃ conv, (SendMessage
          [ToolDefinition.mk "read_slide" (fun _ => Except.error "boom")] [] "" false
          (Except.ok ⟨[ContentBlock.toolUse "t1" "read_slide" "{}"]⟩ :: []) "hi").1.getLast?
        = some (Ev.inferCall false conv)) :=
  ⟨⟨by simp, rfl⟩,
   C8_tool_errors_kept_in_loop.1
     [ToolDefinition.mk "read_slide" (fun _ => Except.error "boom")]
     "t1" "read_slide" "{}" "boom"
     (ToolDefinition.mk "read_slide" (fun _ => Except.error "boom")) (by simp) rfl,
   C8_tool_errors_kept_in_loop.2.1
     [ToolDefinition.mk "read_slide" (fun _ => Except.error "boom")]
     [] "" false "hi" "t1" "read_slide" "{}" "boom"
     (ToolDefinition.mk "read_slide" (fun _ => Except.error "boom")) [] (by simp) rfl,
   C8_tool_errors_kept_in_loop.2.2
     [ToolDefinition.mk "read_slide" (fun _ => Except.error "boom")]
     [] "" false (Except.ok ⟨[ContentBlock.toolUse "t1" "read_slide" "{}"]⟩ :: [])
     "hi" "provider failure" (by decide)⟩

/-- Content processing emits no inference-call event at all. -/
lemma processContent_no_inferCall (tools : List ToolDefinition)
    (content : List ContentBlock) (b : Bool) (c : List MessageParam) :
    Ev.inferCall b c ∉ (processContent tools content).1 := by
  induction content with
  | nil => simp [processContent]
  | cons x rest ih =>
    cases x with
    | text s =>
      by_cases h : s = "" <;> simp [processContent, h, ih]
    | toolUse id name input =>
      simp [processContent, ih]

/-- Every inference call the loop issues carries the non-cancelled
background context. -/
lemma sendLoop_inferCall_false (tools : List ToolDefinition) :
    ∀ (script : List (Except String Msg)) (conv : List MessageParam) (cur : Msg)
      (b : Bool) (c : List MessageParam),
      Ev.inferCall b c ∈ (sendLoop tools script conv cur).1 → b = false := by
  intro script
  induction script with
  | nil =>
    intro conv cur b c hmem
    by_cases hemp : (processContent tools cur.content).2.isEmpty = true
    · simp [sendLoop, hemp] at hmem
      exact absurd hmem (processContent_no_inferCall tools cur.content b c)
    · have h' : (processContent tools cur.content).2.isEmpty = false :=
        Bool.of_not_eq_true hemp
      simp [sendLoop, h'] at hmem
      rcases hmem with hmem | hmem
      · exact absurd hmem (processContent_no_inferCall tools cur.content b c)
      · exact hmem.1
  | cons r rest ih =>
    intro conv cur b c hmem
    by_cases hemp : (processContent tools cur.content).2.isEmpty = true
    · cases r <;>
        (simp [sendLoop, hemp] at hmem
         exact absurd hmem (processContent_no_inferCall tools cur.content b c))
    · have h' : (processContent tools cur.content).2.isEmpty = false :=
        Bool.of_not_eq_true hemp
      cases r with
      | error e =>
        simp [sendLoop, h'] at hmem
        rcases hmem with hmem | hmem
        · exact absurd hmem (processContent_no_inferCall tools cur.content b c)
        · exact hmem.1
      | ok m =>
        simp [sendLoop, h'] at hmem
        rcases hmem with hmem | hmem | hmem
        · exact absurd hmem (processContent_no_inferCall tools cur.content b c)
        · exact hmem.1
        · exact ih _ m b c hmem

/-- C6 counterexample: with the external context already cancelled
(`ctxCancelled = true`) and a provider scripted to request one tool on
round 1, `SendMessage` still issues the second inference call and
completes normally — it does not stop before the next inference call
and reports no cancellation outcome. -/
theorem C6_cancelled_loop_still_infers :
    coreEvents (SendMessage [] [] "" true
        [Except.ok ⟨[ContentBlock.toolUse "t1" "list_slides" "{}"]⟩,
         Except.ok ⟨[ContentBlock.text "done"]⟩] "hi").1
      = [CoreEv.infer, CoreEv.exec, CoreEv.infer]
    ∧ (SendMessage [] [] "" true
        [Except.ok ⟨[ContentBlock.toolUse "t1" "list_slides" "{}"]⟩,
         Except.ok ⟨[ContentBlock.text "done"]⟩] "hi").2
      = Except.ok
          [MessageParam.userText "hi",
           MessageParam.assistant [ContentBlock.toolUse "t1" "list_slides" "{}"],
           MessageParam.userToolResults [⟨"t1", "tool not found", true⟩],
           MessageParam.assistant [ContentBlock.text "done"]] := by
  constructor
  · decide
  · decide

/-- C6 (amended): `SendMessage` receives the external context but, as
in the source, stores it only for event emission: the entire run —
trace and outcome — is independent of the cancellation signal, and
every inference call is issued with the non-cancelled background
context (`context.Background()`), so a cancelled loop neither stops
before the next inference call nor reports a distinct cancellation
outcome. -/
theorem C6_cancellation_ignored :
    (∀ (tools : List ToolDefinition) (initConv : List MessageParam)
        (path : String) (script : List (Except String Msg))
        (userMessage : String) (c : Bool),
        SendMessage tools initConv path c script userMessage
          = SendMessage tools initConv path false script userMessage)
    ∧ (∀ (tools : List ToolDefinition) (initConv : List MessageParam)
        (path : String) (script : List (Except String Msg))
        (userMessage : String) (c b : Bool) (conv : List MessageParam),
        Ev.inferCall b conv ∈ (SendMessage tools initConv path c script userMessage).1 →
        b = false) := by
  refine ⟨fun _ _ _ _ _ _ => rfl, ?_⟩
  intro tools initConv path script userMessage c b conv hmem
  cases script with
  | nil =>
    simp [SendMessage] at hmem
    exact hmem.1
  | cons r rest =>
    cases r with
    | error e =>
      simp [SendMessage] at hmem
      exact hmem.1
    | ok m =>
      simp [SendMessage] at hmem
      rcases hmem with hmem | hmem
      · exact hmem.1
      · exact sendLoop_inferCall_false tools rest _ m b conv hmem

/-- Witness for C6's amended theorem at a concrete cancelled run. -/
theorem C6_cancellation_ignored_witness :
    (Ev.inferCall false [MessageParam.userText (enhanceMessage "" "hi")]
        ∈ (SendMessage [] [] "" true [] "hi").1)
    ∧ false = false :=
  ⟨by decide,
   C6_cancellation_ignored.2 [] [] "" [] "hi" true false
     [MessageParam.userText (enhanceMessage "" "hi")] (by decide)⟩

/-! ## Helper lemmas about the tool handlers -/

/-- A resolved presentation path is never empty: either it came from a
non-empty input field or from a non-empty session path. -/
lemma resolvePath_ok_ne (app : Option AppState) (inputPath path : String)
    (h : resolvePath app inputPath = Except.ok path) : path ≠ "" := by
  by_cases hp : inputPath = ""
  · subst hp
    cases app with
    | none => simp [resolvePath] at h
    | some a =>
      by_cases ha : a.currentPresentationPath = ""
      · simp [resolvePath, ha] at h
      · simp [resolvePath, ha] at h
        rw [← h]
        exact ha
  · simp [resolvePath, hp] at h
    rw [← h]
    exact hp

/-- `ExportSlides` with an explicit path performs exactly one converter
run, whatever the converter's outcome. -/
lemma ExportSlides_trace (app : Option AppState) (input : ExportSlidesInput)
    (convert : Except String (List String)) (h : input.presentationPath ≠ "") :
    (ExportSlides app input convert).1
      = [ExtCall.convert input.presentationPath
          (if input.outputDir == "" then "slides" else input.outputDir)] := by
  cases convert <;> simp [ExportSlides, resolvePath, h]

/-- C3: for each mutating tool whose backend JSON result has
`success=true`, exactly one auto-refresh (converter run) is attempted,
immediately after the backend mutation; and when the auto-refresh
fails, the handler still returns the mutation's raw success output
unchanged (`Except.ok`, so the tool result block has `is_error=false`).
For `edit_slide_text` the raw output is returned unchanged whatever the
refresh outcome. -/
theorem C3_auto_refresh_policy :
    (∀ (app : Option AppState) (input : EditSlideTextInput) (raw : String)
        (fields : List (String × JVal)) (convert : Except String (List String))
        (path : String),
        resolvePath app input.presentationPath = Except.ok path →
        ¬ input.slideNumber < 1 →
        input.targetType ≠ "" → input.targetValue ≠ "" → input.newText ≠ "" →
        ¬(input.targetType = "text_replace" ∧ input.oldText = "") →
        successFlag fields = true →
        ∃ args, EditSlideText app input true
            (BackendResult.output raw (JsonOut.obj fields)) convert
          = ([ExtCall.runBackend args, ExtCall.convert path "slides"],
             Except.ok (HandlerOut.raw raw)))
    ∧ (∀ (app : Option AppState) (input : AddSlideInput) (raw : String)
        (fields : List (String × JVal)) (convert : Except String (List String))
        (path : String),
        resolvePath app input.presentationPath = Except.ok path →
        successFlag fields = true →
        (∃ args, (AddSlide app input
            (BackendResult.output raw (JsonOut.obj fields)) convert).1
          = [ExtCall.runBackend args, ExtCall.convert path "slides"])
        ∧ ∀ e, convert = Except.error e →
            (AddSlide app input
              (BackendResult.output raw (JsonOut.obj fields)) convert).2
              = Except.ok (HandlerOut.raw raw))
    ∧ (∀ (app : Option AppState) (input : DeleteSlideInput) (raw : String)
        (fields : List (String × JVal)) (convert : Except String (List String))
        (path : String),
        resolvePath app input.presentationPath = Except.ok path →
        ¬ input.slideNumber < 1 →
        successFlag fields = true →
        (∃ args, (DeleteSlide app input
            (BackendResult.output raw (JsonOut.obj fields)) convert).1
          = [ExtCall.runBackend args, ExtCall.convert path "slides"])
        ∧ ∀ e, convert = Except.error e →
            (DeleteSlide app input
              (BackendResult.output raw (JsonOut.obj fields)) convert).2
              = Except.ok (HandlerOut.raw raw)) := by
  refine ⟨?_, ?_, ?_⟩
  · intro app input raw fields convert path h hn ht htv hnt hold hsucc
    have ht' : (input.targetType == "") = false := beq_eq_false_iff_ne.mpr ht
    have htv' : (input.targetValue == "") = false := beq_eq_false_iff_ne.mpr htv
    have hnt' : (input.newText == "") = false := beq_eq_false_iff_ne.mpr hnt
    have hold' : (input.targetType == "text_replace" && (input.oldText == ""))
        = false := by
      by_cases htr : input.targetType = "text_replace"
      · have hne : input.oldText ≠ "" := fun hc => hold ⟨htr, hc⟩
        simp [htr, beq_eq_false_iff_ne.mpr hne]
      · simp [beq_eq_false_iff_ne.mpr htr]
    have hext := ExportSlides_trace app
      { presentationPath := path, slideNumbers := [input.slideNumber],
        outputDir := "slides" } convert (resolvePath_ok_ne app _ path h)
    refine ⟨["scripts/uno_edit_slide.py", path, toString input.slideNumber,
              input.targetType, input.targetValue, input.newText]
            ++ (if input.oldText ≠ "" then [input.oldText] else []), ?_⟩
    simp only [EditSlideText, h, hn, ht', htv', hnt', hold', hsucc,
      Bool.false_eq_true, if_false, if_true, Bool.not_true, ite_false, hext]
    simp
  · intro app input raw fields convert path h _hsucc
    constructor
    · refine ⟨["scripts/uno_add_slide.py", path]
        ++ [if input.position > 0 then toString input.position else ""]
        ++ [if input.layout == "" then "blank" else input.layout]
        ++ (if input.title ≠ "" then [input.title] else []), ?_⟩
      cases convert <;> simp [AddSlide, h]
    · intro e he
      subst he
      simp [AddSlide, h]
  · intro app input raw fields convert path h hn _hsucc
    constructor
    · refine ⟨["scripts/uno_delete_slide.py", path, toString input.slideNumber], ?_⟩
      cases convert <;> simp [DeleteSlide, h, hn]
    · intro e he
      subst he
      simp [DeleteSlide, h, hn]

/-- Witness for C3 at a concrete successful edit/add/delete whose
auto-refresh fails. -/
theorem C3_auto_refresh_policy_witness :
    (resolvePath none "/d.pptx" = Except.ok "/d.pptx"
      ∧ successFlag [("success", JVal.bool true)] = true)
    ∧ (∃ args, EditSlideText none
          ⟨"/d.pptx", 1, "shape_index", "0", "new", ""⟩ true
          (BackendResult.output "ok" (JsonOut.obj [("success", JVal.bool true)]))
          (Except.error "conv failed")
        = ([ExtCall.runBackend args, ExtCall.convert "/d.pptx" "slides"],
           Except.ok (HandlerOut.raw "ok")))
    ∧ ((∃ args, (AddSlide none ⟨"/d.pptx", 0, "", ""⟩
          (BackendResult.output "ok" (JsonOut.obj [("success", JVal.bool true)]))
          (Except.error "conv failed")).1
        = [ExtCall.runBackend args, ExtCall.convert "/d.pptx" "slides"])
      ∧ ∀ e, (Except.error "conv failed" : Except String (List String))
            = Except.error e →
          (AddSlide none ⟨"/d.pptx", 0, "", ""⟩
            (BackendResult.output "ok" (JsonOut.obj [("success", JVal.bool true)]))
            (Except.error "conv failed")).2 = Except.ok (HandlerOut.raw "ok"))
    ∧ ((∃ args, (DeleteSlide none ⟨"/d.pptx", 2⟩
          (BackendResult.output "ok" (JsonOut.obj [("success", JVal.bool true)]))
          (Except.error "conv failed")).1
        = [ExtCall.runBackend args, ExtCall.convert "/d.pptx" "slides"])
      ∧ ∀ e, (Except.error "conv failed" : Except String (List String))
            = Except.error e →
          (DeleteSlide none ⟨"/d.pptx", 2⟩
            (BackendResult.output "ok" (JsonOut.obj [("success", JVal.bool true)]))
            (Except.error "conv failed")).2 = Except.ok (HandlerOut.raw "ok")) :=
  ⟨⟨by decide, by decide⟩,
   C3_auto_refresh_policy.1 none ⟨"/d.pptx", 1, "shape_index", "0", "new", ""⟩
     "ok" [("success", JVal.bool true)] (Except.error "conv failed") "/d.pptx"
     (by decide) (by decide) (by decide) (by decide) (by decide) (by decide)
     (by decide),
   C3_auto_refresh_policy.2.1 none ⟨"/d.pptx", 0, "", ""⟩
     "ok" [("success", JVal.bool true)] (Except.error "conv failed") "/d.pptx"
     (by decide) (by decide),
   C3_auto_refresh_policy.2.2 none ⟨"/d.pptx", 2⟩
     "ok" [("success", JVal.bool true)] (Except.error "conv failed") "/d.pptx"
     (by decide) (by decide) (by decide)⟩

/-- C4 counterexample: with no document active and a pathless input,
the edit tool fails before any external command, but its message is
"no presentation loaded - please load a presentation first", not the
claimed "no document loaded". -/
theorem C4_no_document_message_differs :
    EditSlideText none ⟨"", 1, "shape_index", "0", "new", ""⟩ true
        (BackendResult.output "{}" (JsonOut.obj [])) (Except.ok [])
      = ([], Except.error
          "no presentation loaded - please load a presentation first")
    ∧ "no presentation loaded - please load a presentation first"
      ≠ "no document loaded" := by
  constructor
  · decide
  · decide

/-- C4 (amended): every document-touching tool substitutes the active
presentation path when the decoded input's path field is empty; when no
document is active, the invocation fails before any external command
(empty trace) with message "no presentation loaded - please load a
presentation first" (indicating no document is loaded), and
`executeTool` turns that handler error into a tool result with
`is_error=true` carrying that message. -/
theorem C4_missing_path_resolution :
    (∀ (a : AppState), a.currentPresentationPath ≠ "" →
        resolvePath (some a) "" = Except.ok a.currentPresentationPath)
    ∧ (∀ (app : Option AppState),
        (app = none ∨ ∃ a, app = some a ∧ a.currentPresentationPath = "") →
        (∀ (input : ListSlidesInput), input.presentationPath = "" →
          ∀ fe backend, ListSlides app input fe backend
            = ([], Except.error
                "no presentation loaded - please load a presentation first"))
        ∧ (∀ (input : ReadSlideInput), input.presentationPath = "" →
          ∀ backend, ReadSlide app input backend
            = ([], Except.error
                "no presentation loaded - please load a presentation first"))
        ∧ (∀ (input : EditSlideTextInput), input.presentationPath = "" →
          ∀ fe backend convert, EditSlideText app input fe backend convert
            = ([], Except.error
                "no presentation loaded - please load a presentation first"))
        ∧ (∀ (input : ExportSlidesInput), input.presentationPath = "" →
          ∀ convert, ExportSlides app input convert
            = ([], Except.error
                "no presentation loaded - please load a presentation first"))
        ∧ (∀ (input : AddSlideInput), input.presentationPath = "" →
          ∀ backend convert, AddSlide app input backend convert
            = ([], Except.error
                "no presentation loaded - please load a presentation first"))
        ∧ (∀ (input : DeleteSlideInput), input.presentationPath = "" →
          ∀ backend convert, DeleteSlide app input backend convert
            = ([], Except.error
                "no presentation loaded - please load a presentation first")))
    ∧ (∀ (tools : List ToolDefinition) (id name inputStr : String)
        (t : ToolDefinition),
        tools.find? (fun u => u.name == name) = some t →
        t.fn inputStr = Except.error
          "no presentation loaded - please load a presentation first" →
        executeTool tools id name inputStr
          = ⟨id, "no presentation loaded - please load a presentation first",
              true⟩) := by
  refine ⟨?_, ?_, ?_⟩
  · intro a ha
    simp [resolvePath, ha]
  · intro app happ
    have hres : resolvePath app ""
        = Except.error "no presentation loaded - please load a presentation first" := by
      rcases happ with rfl | ⟨a, rfl, ha⟩
      · simp [resolvePath]
      · simp [resolvePath, ha]
    refine ⟨?_, ?_, ?_, ?_, ?_, ?_⟩
    · intro input hp fe backend
      simp [ListSlides, hp, hres]
    · intro input hp backend
      simp [ReadSlide, hp, hres]
    · intro input hp fe backend convert
      simp [EditSlideText, hp, hres]
    · intro input hp convert
      simp [ExportSlides, hp, hres]
    · intro input hp backend convert
      simp [AddSlide, hp, hres]
    · intro input hp backend convert
      simp [DeleteSlide, hp, hres]
  · intro tools id name inputStr t hf hfn
    simp [executeTool, hf, hfn]

/-- Witness for C4's amended theorem: substitution with a loaded
presentation, the no-document failure of `read_slide`, and the
resulting error tool-result block. -/
theorem C4_missing_path_resolution_witness :
    ((AppState.mk "/d.pptx").currentPresentationPath ≠ ""
      ∧ resolvePath (some ⟨"/d.pptx"⟩) ""
          = Except.ok (AppState.mk "/d.pptx").currentPresentationPath)
    ∧ ReadSlide none ⟨"", 1⟩ (BackendResult.output "{}" (JsonOut.obj []))
        = ([], Except.error
            "no presentation loaded - please load a presentation first")
    ∧ executeTool
        [ToolDefinition.mk "read_slide" (fun _ => Except.error
          "no presentation loaded - please load a presentation first")]
        "t1" "read_slide" "{}"
        = ⟨"t1", "no presentation loaded - please load a presentation first",
            true⟩ :=
  ⟨⟨by decide,
    C4_missing_path_resolution.1 ⟨"/d.pptx"⟩ (by decide)⟩,
   (C4_missing_path_resolution.2.1 none (Or.inl rfl)).2.1 ⟨"", 1⟩ rfl
     (BackendResult.output "{}" (JsonOut.obj [])),
   C4_missing_path_resolution.2.2
     [ToolDefinition.mk "read_slide" (fun _ => Except.error
       "no presentation loaded - please load a presentation first")]
     "t1" "read_slide" "{}"
     (ToolDefinition.mk "read_slide" (fun _ => Except.error
       "no presentation loaded - please load a presentation first"))
     (by simp) rfl⟩

/-- C5 counterexample: `add_slide` with an explicitly negative position
does not fail validation — it runs the external command with an empty
positional argument (append-to-end) and reports success. -/
theorem C5_add_slide_negative_position_accepted :
    AddSlide (some ⟨"/d.pptx"⟩) ⟨"", -1, "", ""⟩
        (BackendResult.output "{}" (JsonOut.obj [])) (Except.ok ["s1"])
      = ([ExtCall.runBackend ["scripts/uno_add_slide.py", "/d.pptx", "", "blank"],
          ExtCall.convert "/d.pptx" "slides"],
         Except.ok (HandlerOut.enhanced [] ["s1"] "slides")) := by
  decide

/-- C5 (amended): the three slide_number tools (`read_slide`,
`edit_slide_text`, `delete_slide`) validate the 1-based slide number:
0 or negative fails with the typed error "slide_number must be 1 or
greater" before any external command runs (empty trace), while a value
of 1 passes validation and the handler proceeds to run the external
backend command. `add_slide`'s 1-based `position`, however, is not
validated: any value of 0 or below is silently treated as the
append-to-end default (the empty positional argument) and the external
command still runs. -/
theorem C5_index_validation :
    (∀ (app : Option AppState) (input : ReadSlideInput) (backend : BackendResult)
        (path : String),
        resolvePath app input.presentationPath = Except.ok path →
        input.slideNumber < 1 →
        ReadSlide app input backend
          = ([], Except.error "slide_number must be 1 or greater"))
    ∧ (∀ (app : Option AppState) (input : EditSlideTextInput)
        (backend : BackendResult) (convert : Except String (List String))
        (path : String),
        resolvePath app input.presentationPath = Except.ok path →
        input.slideNumber < 1 →
        EditSlideText app input true backend convert
          = ([], Except.error "slide_number must be 1 or greater"))
    ∧ (∀ (app : Option AppState) (input : DeleteSlideInput)
        (backend : BackendResult) (convert : Except String (List String))
        (path : String),
        resolvePath app input.presentationPath = Except.ok path →
        input.slideNumber < 1 →
        DeleteSlide app input backend convert
          = ([], Except.error "slide_number must be 1 or greater"))
    ∧ (∀ (app : Option AppState) (input : ReadSlideInput) (backend : BackendResult)
        (path : String),
        resolvePath app input.presentationPath = Except.ok path →
        input.slideNumber = 1 →
        (ReadSlide app input backend).1
          = [ExtCall.runBackend ["scripts/uno_read_slide.py", path,
              toString input.slideNumber]])
    ∧ (∀ (app : Option AppState) (input : EditSlideTextInput)
        (backend : BackendResult) (convert : Except String (List String))
        (path : String),
        resolvePath app input.presentationPath = Except.ok path →
        input.slideNumber = 1 →
        input.targetType ≠ "" → input.targetValue ≠ "" → input.newText ≠ "" →
        ¬(input.targetType = "text_replace" ∧ input.oldText = "") →
        (EditSlideText app input true backend convert).1.head?
          = some (ExtCall.runBackend
              (["scripts/uno_edit_slide.py", path, toString input.slideNumber,
                input.targetType, input.targetValue, input.newText]
               ++ (if input.oldText ≠ "" then [input.oldText] else []))))
    ∧ (∀ (app : Option AppState) (input : DeleteSlideInput)
        (backend : BackendResult) (convert : Except String (List String))
        (path : String),
        resolvePath app input.presentationPath = Except.ok path →
        input.slideNumber = 1 →
        (DeleteSlide app input backend convert).1.head?
          = some (ExtCall.runBackend ["scripts/uno_delete_slide.py", path,
              toString input.slideNumber]))
    ∧ (∀ (app : Option AppState) (input : AddSlideInput) (backend : BackendResult)
        (convert : Except String (List String)) (path : String),
        resolvePath app input.presentationPath = Except.ok path →
        input.position ≤ 0 →
        (AddSlide app input backend convert).1.head?
          = some (ExtCall.runBackend
              (["scripts/uno_add_slide.py", path]
               ++ [""]
               ++ [if input.layout == "" then "blank" else input.layout]
               ++ (if input.title ≠ "" then [input.title] else [])))) := by
  refine ⟨?_, ?_, ?_, ?_, ?_, ?_, ?_⟩
  · intro app input backend path h hn
    simp [ReadSlide, h, hn]
  · intro app input backend convert path h hn
    simp [EditSlideText, h, hn]
  · intro app input backend convert path h hn
    simp [DeleteSlide, h, hn]
  · intro app input backend path h hn
    have hn' : ¬ input.slideNumber < 1 := by omega
    cases backend with
    | execError m o => simp [ReadSlide, h, hn']
    | output raw json => cases json <;> simp [ReadSlide, h, hn']
  · intro app input backend convert path h hn ht htv hnt hold
    have hn' : ¬ input.slideNumber < 1 := by omega
    have ht' : (input.targetType == "") = false := beq_eq_false_iff_ne.mpr ht
    have htv' : (input.targetValue == "") = false := beq_eq_false_iff_ne.mpr htv
    have hnt' : (input.newText == "") = false := beq_eq_false_iff_ne.mpr hnt
    have hold' : (input.targetType == "text_replace" && (input.oldText == ""))
        = false := by
      by_cases htr : input.targetType = "text_replace"
      · have hne : input.oldText ≠ "" := fun hc => hold ⟨htr, hc⟩
        simp [htr, beq_eq_false_iff_ne.mpr hne]
      · simp [beq_eq_false_iff_ne.mpr htr]
    cases backend with
    | execError m o => simp [EditSlideText, h, hn', ht', htv', hnt', hold']
    | output raw json =>
      cases json with
      | invalid => simp [EditSlideText, h, hn', ht', htv', hnt', hold']
      | nonObject => simp [EditSlideText, h, hn', ht', htv', hnt', hold']
      | obj fields =>
        by_cases hs : successFlag fields = true
        · simp [EditSlideText, h, hn', ht', htv', hnt', hold', hs]
        · simp [EditSlideText, h, hn', ht', htv', hnt', hold', hs]
  · intro app input backend convert path h hn
    have hn' : ¬ input.slideNumber < 1 := by omega
    cases backend with
    | execError m o => simp [DeleteSlide, h, hn']
    | output raw json =>
      cases json with
      | invalid => simp [DeleteSlide, h, hn']
      | nonObject => simp [DeleteSlide, h, hn']
      | obj fields => cases convert <;> simp [DeleteSlide, h, hn']
  · intro app input backend convert path h hpos
    have hpos' : ¬ input.position > 0 := by omega
    cases backend with
    | execError m o => simp [AddSlide, h, hpos']
    | output raw json =>
      cases json with
      | invalid => simp [AddSlide, h, hpos']
      | nonObject => simp [AddSlide, h, hpos']
      | obj fields => cases convert <;> simp [AddSlide, h, hpos']

/-- Witness for C5's amended theorem at concrete inputs. -/
theorem C5_index_validation_witness :
    (resolvePath (some ⟨"/d.pptx"⟩) "" = Except.ok "/d.pptx"
      ∧ ((0 : Int) < 1 ∧ ¬((1 : Int) < 1) ∧ ((-2 : Int) ≤ 0)))
    ∧ ReadSlide (some ⟨"/d.pptx"⟩) ⟨"", 0⟩
        (BackendResult.output "{}" (JsonOut.obj []))
        = ([], Except.error "slide_number must be 1 or greater")
    ∧ (ReadSlide (some ⟨"/d.pptx"⟩) ⟨"", 1⟩
        (BackendResult.output "{}" (JsonOut.obj []))).1
        = [ExtCall.runBackend ["scripts/uno_read_slide.py", "/d.pptx",
            toString (1 : Int)]]
    ∧ DeleteSlide (some ⟨"/d.pptx"⟩) ⟨"", -3⟩
        (BackendResult.output "{}" (JsonOut.obj [])) (Except.ok [])
        = ([], Except.error "slide_number must be 1 or greater")
    ∧ (AddSlide (some ⟨"/d.pptx"⟩) ⟨"", -2, "", ""⟩
        (BackendResult.output "{}" (JsonOut.obj [])) (Except.ok [])).1.head?
        = some (ExtCall.runBackend
            (["scripts/uno_add_slide.py", "/d.pptx"] ++ [""] ++ ["blank"] ++ [])) :=
  ⟨⟨by decide, by decide, by decide, by decide⟩,
   C5_index_validation.1 (some ⟨"/d.pptx"⟩) ⟨"", 0⟩
     (BackendResult.output "{}" (JsonOut.obj [])) "/d.pptx" (by decide) (by decide),
   C5_index_validation.2.2.2.1 (some ⟨"/d.pptx"⟩) ⟨"", 1⟩
     (BackendResult.output "{}" (JsonOut.obj [])) "/d.pptx" (by decide) (by decide),
   C5_index_validation.2.2.1 (some ⟨"/d.pptx"⟩) ⟨"", -3⟩
     (BackendResult.output "{}" (JsonOut.obj [])) (Except.ok []) "/d.pptx"
     (by decide) (by decide),
   by
     have := C5_index_validation.2.2.2.2.2.2 (some ⟨"/d.pptx"⟩) ⟨"", -2, "", ""⟩
       (BackendResult.output "{}" (JsonOut.obj [])) (Except.ok []) "/d.pptx"
       (by decide) (by decide)
     simpa using this⟩

/-- Membership in the 0-based key set built from the requested 1-based
slide numbers is exactly membership of the 1-based position. -/
lemma mem_keys_iff (ns : List Int) (i : Nat) :
    ((i : Int) ∈ ns.map (fun n => n - 1)) ↔ ((i : Int) + 1 ∈ ns) := by
  rw [List.mem_map]
  constructor
  · rintro ⟨n, hn, hEq⟩
    have : n = (i : Int) + 1 := by omega
    rw [← this]
    exact hn
  · intro h
    exact ⟨(i : Int) + 1, h, by omega⟩

/-- C9: when `ExportSlides` is called with a non-empty `slide_numbers`
list and the converter succeeds with files `es`, the returned result is
`success=true` and its slide list is exactly the exported files whose
1-based position appears in the requested list (requested numbers
outside the exported range contribute nothing and cause no error), with
`slide_count` equal to the filtered list's length — possibly zero. -/
theorem C9_export_slides_filtering (app : Option AppState)
    (input : ExportSlidesInput) (es : List String) (path : String)
    (h : resolvePath app input.presentationPath = Except.ok path)
    (hns : input.slideNumbers ≠ []) :
    ExportSlides app input (Except.ok es)
      = ([ExtCall.convert path
            (if input.outputDir == "" then "slides" else input.outputDir)],
         Except.ok (HandlerOut.exported true
           ((es.enum.filter (fun p =>
              decide (((p.1 : Int) + 1) ∈ input.slideNumbers))).map
              (fun p => p.2)).length
           ((es.enum.filter (fun p =>
              decide (((p.1 : Int) + 1) ∈ input.slideNumbers))).map
              (fun p => p.2))
           (if input.outputDir == "" then "slides" else input.outputDir))) := by
  have hne : input.slideNumbers.isEmpty = false := by
    cases hcase : input.slideNumbers with
    | nil => exact absurd hcase hns
    | cons a l => rfl
  have hfeq : (fun p : Nat × String =>
        decide ((p.1 : Int) ∈ input.slideNumbers.map (fun n => n - 1)))
      = (fun p : Nat × String =>
        decide (((p.1 : Int) + 1) ∈ input.slideNumbers)) := by
    funext p
    exact decide_eq_decide.mpr (mem_keys_iff input.slideNumbers p.1)
  simp only [ExportSlides, h, hne, Bool.false_eq_true, if_false, hfeq]

/-- Witness for C9: three exported files, requested positions 2 and 5
(5 is out of range and silently dropped). -/
theorem C9_export_slides_filtering_witness :
    (resolvePath none "/d.pptx" = Except.ok "/d.pptx"
      ∧ ([2, 5] : List Int) ≠ [])
    ∧ ExportSlides none ⟨"/d.pptx", [2, 5], ""⟩ (Except.ok ["a", "b", "c"])
      = ([ExtCall.convert "/d.pptx"
            (if ("" : String) == "" then "slides" else "")],
         Except.ok (HandlerOut.exported true
           ((["a", "b", "c"].enum.filter (fun p =>
              decide (((p.1 : Int) + 1) ∈ ([2, 5] : List Int)))).map
              (fun p => p.2)).length
           ((["a", "b", "c"].enum.filter (fun p =>
              decide (((p.1 : Int) + 1) ∈ ([2, 5] : List Int)))).map
              (fun p => p.2))
           (if ("" : String) == "" then "slides" else ""))) :=
  ⟨⟨by decide, by decide⟩,
   C9_export_slides_filtering none ⟨"/d.pptx", [2, 5], ""⟩ ["a", "b", "c"]
     "/d.pptx" (by decide) (by decide)⟩

/-! ## C10: App.GetSlides -/

lemma charListLe_total : ∀ x y : List Char,
    charListLe x y = true ∨ charListLe y x = true := by
  intro x
  induction x with
  | nil => intro y; left; rfl
  | cons a as ih =>
    intro y
    cases y with
    | nil => right; rfl
    | cons b bs =>
      by_cases h1 : a.toNat < b.toNat
      · left; simp [charListLe, h1]
      · by_cases h2 : b.toNat < a.toNat
        · right; simp [charListLe, h1, h2]
        · rcases ih bs with h | h
          · left; simp [charListLe, h1, h2, h]
          · right; simp [charListLe, h1, h2, h]

lemma charListLe_cons (a b : Char) (as bs : List Char) :
    charListLe (a :: as) (b :: bs)
      = if a.toNat < b.toNat then true
        else if b.toNat < a.toNat then false
        else charListLe as bs := rfl

lemma charListLe_trans : ∀ x y z : List Char,
    charListLe x y = true → charListLe y z = true → charListLe x z = true := by
  intro x
  induction x with
  | nil => intro y z _ _; rfl
  | cons a as ih =>
    intro y z hxy hyz
    cases y with
    | nil => simp [charListLe] at hxy
    | cons b bs =>
      cases z with
      | nil => simp [charListLe] at hyz
      | cons c cs =>
        rw [charListLe_cons] at hxy hyz ⊢
        by_cases hab : a.toNat < b.toNat
        · rw [if_pos hab] at hxy
          by_cases hbc : b.toNat < c.toNat
          · rw [if_pos (by omega : a.toNat < c.toNat)]
          · rw [if_neg hbc] at hyz
            by_cases hcb : c.toNat < b.toNat
            · rw [if_pos hcb] at hyz
              exact absurd hyz Bool.false_ne_true
            · rw [if_pos (by omega : a.toNat < c.toNat)]
        · rw [if_neg hab] at hxy
          by_cases hba : b.toNat < a.toNat
          · rw [if_pos hba] at hxy
            exact absurd hxy Bool.false_ne_true
          · rw [if_neg hba] at hxy
            by_cases hbc : b.toNat < c.toNat
            · rw [if_pos (by omega : a.toNat < c.toNat)]
            · rw [if_neg hbc] at hyz
              by_cases hcb : c.toNat < b.toNat
              · rw [if_pos hcb] at hyz
                exact absurd hyz Bool.false_ne_true
              · rw [if_neg hcb] at hyz
                rw [if_neg (by omega : ¬ a.toNat < c.toNat),
                  if_neg (by omega : ¬ c.toNat < a.toNat)]
                exact ih bs cs hxy hyz

instance : IsTotal String (fun a b => strLe a b = true) :=
  ⟨fun a b => charListLe_total a.data b.data⟩

instance : IsTrans String (fun a b => strLe a b = true) :=
  ⟨fun _ _ _ hab hbc => charListLe_trans _ _ _ hab hbc⟩

/-- C10: `App.GetSlides` never returns a nil slide list on success:
a missing slides directory yields the non-nil empty list with no error;
a successful walk yields (with no error) a non-nil list that is a
lexicographically sorted permutation of the absolute paths of the
non-directory `.jpg`/`.jpeg` entries; and whenever no error is
returned, the slice is non-nil. -/
theorem C10_get_slides_never_nil (abs : String → String) :
    (∀ walk, GetSlides false walk abs = (some [], none))
    ∧ (∀ entries : List WalkEntry, ∃ l,
        GetSlides true (Except.ok entries) abs = (some l, none)
        ∧ List.Sorted (fun a b => strLe a b = true) l
        ∧ l.Perm ((entries.filter
            (fun d => !d.isDir && isSlideImage d.path)).map (fun d => abs d.path)))
    ∧ (∀ (dirExists : Bool) (walk : Except String (List WalkEntry)),
        (GetSlides dirExists walk abs).2 = none →
        (GetSlides dirExists walk abs).1.isSome = true) := by
  refine ⟨fun walk => by simp [GetSlides], ?_, ?_⟩
  · intro entries
    refine ⟨sortStrings ((entries.filter
        (fun d => !d.isDir && isSlideImage d.path)).map (fun d => abs d.path)),
      by simp [GetSlides], ?_, ?_⟩
    · simp only [sortStrings]
      exact List.sorted_insertionSort (fun a b => strLe a b = true) _
    · simp only [sortStrings]
      exact List.perm_insertionSort (fun a b => strLe a b = true) _
  · intro dirExists walk h
    cases dirExists with
    | false => simp [GetSlides]
    | true =>
      cases walk with
      | error e => simp [GetSlides] at h
      | ok entries => simp [GetSlides]

/-- Witness for C10 on a concrete directory walk. -/
theorem C10_get_slides_never_nil_witness :
    ((GetSlides true (Except.ok
        [⟨"slides", true⟩, ⟨"slides/b.jpg", false⟩,
         ⟨"slides/a.jpeg", false⟩, ⟨"slides/x.png", false⟩])
        (fun s => "/w/" ++ s)).2 = none)
    ∧ (GetSlides true (Except.ok
        [⟨"slides", true⟩, ⟨"slides/b.jpg", false⟩,
         ⟨"slides/a.jpeg", false⟩, ⟨"slides/x.png", false⟩])
        (fun s => "/w/" ++ s)).1.isSome = true :=
  ⟨by decide,
   (C10_get_slides_never_nil (fun s => "/w/" ++ s)).2.2 true
     (Except.ok [⟨"slides", true⟩, ⟨"slides/b.jpg", false⟩,
       ⟨"slides/a.jpeg", false⟩, ⟨"slides/x.png", false⟩]) (by decide)⟩

end SlidePilot
